import Mathlib

/-!
Shallow embedding of the stepped-concurrency, watermark-checkpointed
extraction engine of github_issue_extractor.py (class GitHubIssueExtractor),
together with theorems settling the specification claims about it.

Modelling conventions:
* Timestamps are ISO-8601 strings in the source and are compared with the
  string order, which on well-formed ISO-8601 timestamps coincides with
  chronological order; we model them as Nat with its linear order.
* A record is modelled by its identifier and its updated_at timestamp; all
  other fields are opaque and irrelevant to the claims.
* fetch_page_data returns Optional[List[Dict]] in the source: None on an
  unrecoverable failure, an empty list at end of data, and a non-empty list
  of records otherwise.  We model its result as Option (List Record).
* External effects (HTTP responses, the random jitter draw, S3 upload
  success) are inputs of the model; S3 writes performed (watermark store
  writes, CSV artifacts) are recorded in the result state.
-/

/-- Extraction configuration: concurrent pages per batch (STEP_SIZE = 3). -/
def STEP_SIZE : Nat := 3

/-- GitHub API max records per page (PAGE_SIZE = 100). -/
def PAGE_SIZE : Nat := 100

/-- Max retries for backoff (MAX_RETRIES = 5). -/
def MAX_RETRIES : Nat := 5

/-- Initial backoff delay in seconds (BASE_DELAY = 1). -/
def BASE_DELAY : Nat := 1

/-- Max backoff delay in seconds (MAX_DELAY = 32). -/
def MAX_DELAY : Nat := 32

/-- A record returned by the API: an identifier and an updated_at timestamp
(the only fields the engine inspects). -/
structure Record where
  id : Nat
  updated_at : Nat
deriving DecidableEq

/-- Result of fetch_page_data for one page: none models the Python None
(page failed after retries or fatally), some [] models end of data, and a
non-empty some models a data page. -/
abbrev PageResult := Option (List Record)

/-! ### Page fetcher (fetch_page_data, lines 190-265)

The environment supplies, for each attempt number, either an HTTP response
(status, parsed body, optional Retry-After header value) or a
transport-level exception, plus the jitter drawn by random.uniform(0, 1)
on that attempt. -/

/-- Outcome of one HTTP attempt as seen by fetch_page_data: either a
response with a status code, a parsed JSON body and an optional Retry-After
header, or an exception raised by the request. -/
inductive AttemptResult where
  | http (status : Nat) (body : List Record) (retryAfter : Option ℚ)
  | exc
deriving DecidableEq

/-- Backoff update after a sleep: current_delay = min(current_delay * 2,
MAX_DELAY) (lines 243, 252, 262). -/
def nextDelay (current_delay : Nat) : Nat :=
  min (current_delay * 2) MAX_DELAY

/-- Sleep time computed on a rate-limited attempt (lines 235-237):
sleep_time = current_delay + random.uniform(0, 1), overridden with
Retry-After + 1 when that header is present. -/
def rateLimitSleep (current_delay : Nat) (jitter : ℚ) (retryAfter : Option ℚ) : ℚ :=
  match retryAfter with
  | some ra => ra + 1
  | none => (current_delay : ℚ) + jitter

/-- Value of current_delay at the start of the attempt following n
retry-sleeps: BASE_DELAY initially (line 216), then nextDelay after each
sleep. -/
def delayAfter : Nat → Nat
  | 0 => BASE_DELAY
  | n + 1 => nextDelay (delayAfter n)

/-- Retry loop body of fetch_page_data (lines 218-265).  Arguments: the
per-attempt responses, the per-attempt jitter draws, the current attempt
number, the current backoff delay, and the remaining attempts (fuel).
Returns the fetch result together with the list of sleep durations
performed, in order.  Classification, in source order: status 200 returns
the parsed body; 404 or 422 returns the empty list (end of data) with no
retry; 429 or 403 sleeps rateLimitSleep and retries; status at least 500
sleeps current_delay and retries; any other status returns none (fatal)
with no retry; an exception sleeps current_delay and retries.  When fuel
runs out the page has failed: none. -/
def fetchAux (resp : Nat → AttemptResult) (jit : Nat → ℚ) :
    Nat → Nat → Nat → Option (List Record) × List ℚ
  | _, _, 0 => (none, [])
  | attempt, current_delay, fuel + 1 =>
    match resp attempt with
    | .exc =>
      let rest := fetchAux resp jit (attempt + 1) (nextDelay current_delay) fuel
      (rest.1, (current_delay : ℚ) :: rest.2)
    | .http status body retryAfter =>
      if status = 200 then
        (some body, [])
      else if status = 404 ∨ status = 422 then
        (some [], [])
      else if status = 429 ∨ status = 403 then
        let sleep := rateLimitSleep current_delay (jit attempt) retryAfter
        let rest := fetchAux resp jit (attempt + 1) (nextDelay current_delay) fuel
        (rest.1, sleep :: rest.2)
      else if 500 ≤ status then
        let rest := fetchAux resp jit (attempt + 1) (nextDelay current_delay) fuel
        (rest.1, (current_delay : ℚ) :: rest.2)
      else
        (none, [])

/-- fetch_page_data: run the retry loop from attempt 1 with current_delay =
BASE_DELAY and MAX_RETRIES attempts available. -/
def fetch_page_data (resp : Nat → AttemptResult) (jit : Nat → ℚ) :
    Option (List Record) × List ℚ :=
  fetchAux resp jit 1 BASE_DELAY MAX_RETRIES

/-! ### Sink writer (flush_buffer_to_csv, lines 126-188) -/

/-- Result of one flush_buffer_to_csv call: the returned count, the value
of the _batch_file_counter field afterwards, and the sequence number of the
artifact created in S3 (none when nothing was uploaded).  The S3 key is
data/issues_<date>_batch_<counter, zero-padded to 3>.csv, so the sequence
number determines the varying part of the artifact name. -/
structure FlushResult where
  written : Nat
  counter : Nat
  uploaded : Option Nat
deriving DecidableEq

/-- flush_buffer_to_csv: returns 0 immediately for an empty buffer
(lines 136-137; the DataFrame-empty recheck at 142-143 is equivalent since
a DataFrame built from a non-empty list of dicts is non-empty); otherwise
increments the batch file counter (line 165), then attempts the S3 upload:
on success returns the number of rows, on an upload exception returns 0
(lines 177-188).  The upload outcome is the model input uploadOk.  The
function is total: the source catches the upload exception and never
raises. -/
def flush_buffer_to_csv (data_buffer : List Record) (uploadOk : Bool)
    (counter : Nat) : FlushResult :=
  if data_buffer.isEmpty then
    { written := 0, counter := counter, uploaded := none }
  else
    let counter' := counter + 1
    if uploadOk then
      { written := data_buffer.length, counter := counter', uploaded := some counter' }
    else
      { written := 0, counter := counter', uploaded := none }

/-! ### Batch aggregation (run_extraction as_completed loop, lines 310-322) -/

/-- Mutable batch aggregation state of the as_completed loop:
batch_data, batch_has_error, is_end_of_data (lines 300-302). -/
structure BatchAgg where
  batch_data : List Record
  batch_has_error : Bool
  is_end_of_data : Bool
deriving DecidableEq

/-- One iteration of the as_completed loop (lines 310-322): a None result
marks the batch as having an error; a non-empty list is appended to
batch_data and marks end of data when shorter than PAGE_SIZE; an empty
list marks end of data. -/
def aggStep (agg : BatchAgg) (data : PageResult) : BatchAgg :=
  match data with
  | none => { agg with batch_has_error := true }
  | some l =>
    if l.isEmpty then
      { agg with is_end_of_data := true }
    else
      { agg with
          batch_data := agg.batch_data ++ l,
          is_end_of_data := agg.is_end_of_data || decide (l.length < PAGE_SIZE) }

/-- Aggregate the settled page results of one batch, in completion order. -/
def aggregateBatch (results : List PageResult) : BatchAgg :=
  results.foldl aggStep { batch_data := [], batch_has_error := false, is_end_of_data := false }

/-! ### Extraction controller (run_extraction, lines 267-366) -/

/-- Controller state across batches: total_saved_count, global_max_timestamp,
_batch_file_counter, the sequence of values passed to save_last_sync_time
(watermark store writes, in order), and the sequence numbers of CSV
artifacts successfully uploaded. -/
structure RunState where
  total_saved : Nat
  gmt : Nat
  counter : Nat
  writes : List Nat
  artifacts : List Nat
deriving DecidableEq

/-- Environment input for one batch of the controller loop: the settled
page results (in completion order; the source submits STEP_SIZE pages, so
the list is non-empty) and whether the S3 upload of this batch's CSV
succeeds. -/
structure BatchInput where
  results : List PageResult
  uploadOk : Bool
deriving DecidableEq

/-- Body of the controller while-loop for one batch (lines 300-353, without
the page-range bookkeeping): aggregate the page results; if batch_data is
non-empty, flush it (return value discarded, line 326), add
len(batch_data) to the total (line 327), and, when batch_has_error is
false and the batch max updated_at exceeds global_max_timestamp, set
global_max_timestamp to it and write it to the watermark store
(lines 329-343); if batch_data is empty and there was no error, set
is_end_of_data (lines 344-347).  Returns the new state and the final
is_end_of_data flag, which decides loop exit (lines 349-351). -/
def processBatch (st : RunState) (results : List PageResult) (uploadOk : Bool) :
    RunState × Bool :=
  let agg := aggregateBatch results
  if agg.batch_data.isEmpty then
    if agg.batch_has_error then (st, agg.is_end_of_data) else (st, true)
  else
    let fr := flush_buffer_to_csv agg.batch_data uploadOk st.counter
    let st1 : RunState :=
      { st with
          counter := fr.counter,
          artifacts := st.artifacts ++ fr.uploaded.toList,
          total_saved := st.total_saved + agg.batch_data.length }
    let st2 : RunState :=
      if agg.batch_has_error then st1
      else
        match (agg.batch_data.map Record.updated_at).max? with
        | none => st1
        | some t =>
          if st1.gmt < t then { st1 with gmt := t, writes := st1.writes ++ [t] }
          else st1
    (st2, agg.is_end_of_data)

/-- Whether the controller loop exits after processing a batch with the
given page results: the is_end_of_data flag as it stands at line 349. -/
def stopsBatch (results : List PageResult) : Bool :=
  let agg := aggregateBatch results
  if agg.batch_data.isEmpty then !agg.batch_has_error || agg.is_end_of_data
  else agg.is_end_of_data

/-- The controller while-loop (lines 293-353) over a list of batch
environment inputs: process batches in order, stopping after the first one
whose is_end_of_data flag is set.  Returns the final state and whether the
loop exited through the end-of-data break (false only when the input list
was exhausted first, which models a loop still running). -/
def runLoop : RunState → List BatchInput → RunState × Bool
  | st, [] => (st, false)
  | st, b :: rest =>
    let step := processBatch st b.results b.uploadOk
    if step.2 then (step.1, true) else runLoop step.1 rest

/-- The batches the loop actually processes: every batch up to and
including the first one that stops the loop. -/
def consumedBatches : List BatchInput → List BatchInput
  | [] => []
  | b :: rest => if stopsBatch b.results then [b] else b :: consumedBatches rest

/-- run_extraction (lines 267-366): read the watermark, run the loop from
a fresh state (counter reset, line 289), and on exit write
global_max_timestamp to the store once more if it exceeds the starting
watermark (lines 357-359).  The returned state carries total_saved and
final_watermark = gmt (lines 361-366). -/
def run_extraction (watermark : Nat) (inputs : List BatchInput) :
    RunState × Bool :=
  let init : RunState :=
    { total_saved := 0, gmt := watermark, counter := 0, writes := [], artifacts := [] }
  let res := runLoop init inputs
  let st :=
    if watermark < res.1.gmt then { res.1 with writes := res.1.writes ++ [res.1.gmt] }
    else res.1
  (st, res.2)

/-- The watermark value persisted in the store, given the initial persisted
value and the writes performed so far: the last write, or the initial value
when none happened. -/
def persistedWatermark (init : Nat) (writes : List Nat) : Nat :=
  writes.getLast?.getD init

/-! ### Further definitions used in statements and instantiations -/

/-- Invariant tying the watermark store writes to global_max_timestamp:
the initial watermark followed by the writes performed so far is
non-decreasing, and every one of these values is at most
global_max_timestamp. -/
def WatermarkInv (init : Nat) (st : RunState) : Prop :=
  List.Sorted (· ≤ ·) (init :: st.writes) ∧ ∀ x ∈ init :: st.writes, x ≤ st.gmt

/-- Initial controller state with watermark 0, for concrete runs. -/
def st0 : RunState :=
  { total_saved := 0, gmt := 0, counter := 0, writes := [], artifacts := [] }

/-- Concrete batch inputs instantiating C6: a first batch whose only page
failed (the loop must continue) and a second whose only page hit end of
data (the loop must stop there). -/
def c6bs : List BatchInput :=
  [{ results := [none], uploadOk := true },
   { results := [some []], uploadOk := true }]

/-- Concrete batch input on which the sink flush fails: one successful
page carrying a single record with updated_at 5, and an S3 upload that
raises (uploadOk = false). -/
def badBatch : BatchInput :=
  { results := [some [{ id := 1, updated_at := 5 }]], uploadOk := false }

/-- Environment in which every attempt answers HTTP 200 with an empty
body. -/
def constResp200 : Nat → AttemptResult := fun _ => .http 200 [] none

/-- Environment jitter that always draws 0. -/
def zeroJit : Nat → ℚ := fun _ => 0

/-! ### Aggregation lemmas -/

/-- Records collected from a list of page results, in completion order. -/
def collectData : List PageResult → List Record
  | [] => []
  | none :: rest => collectData rest
  | some l :: rest => l ++ collectData rest

/-- Whether a page result signals end of data to the controller: an empty
data page (end of data) or a non-full data page.  Both are exactly the
data pages shorter than PAGE_SIZE, since PAGE_SIZE is positive. -/
def isEndSignal : PageResult → Bool
  | none => false
  | some l => decide (l.length < PAGE_SIZE)

theorem aggStep_error (agg : BatchAgg) (r : PageResult) :
    (aggStep agg r).batch_has_error = (agg.batch_has_error || r.isNone) := by
  cases r with
  | none => simp [aggStep]
  | some l => by_cases h : l.isEmpty <;> simp [aggStep, h]

theorem aggStep_end (agg : BatchAgg) (r : PageResult) :
    (aggStep agg r).is_end_of_data = (agg.is_end_of_data || isEndSignal r) := by
  cases r with
  | none => simp [aggStep, isEndSignal]
  | some l =>
    by_cases h : l.isEmpty
    · have hl : l = [] := List.isEmpty_iff.mp h
      subst hl
      simp [aggStep, isEndSignal, PAGE_SIZE]
    · simp [aggStep, h, isEndSignal]

theorem foldl_aggStep_error (results : List PageResult) (agg : BatchAgg) :
    (results.foldl aggStep agg).batch_has_error
      = (agg.batch_has_error || results.any Option.isNone) := by
  induction results generalizing agg with
  | nil => simp
  | cons r rest ih => simp [List.foldl_cons, ih, aggStep_error, Bool.or_assoc]

theorem foldl_aggStep_end (results : List PageResult) (agg : BatchAgg) :
    (results.foldl aggStep agg).is_end_of_data
      = (agg.is_end_of_data || results.any isEndSignal) := by
  induction results generalizing agg with
  | nil => simp
  | cons r rest ih => simp [List.foldl_cons, ih, aggStep_end, Bool.or_assoc]

theorem foldl_aggStep_data (results : List PageResult) (agg : BatchAgg) :
    (results.foldl aggStep agg).batch_data = agg.batch_data ++ collectData results := by
  induction results generalizing agg with
  | nil => simp [collectData]
  | cons r rest ih =>
    cases r with
    | none => simp [collectData, aggStep, ih]
    | some l =>
      by_cases h : l.isEmpty
      · have hl : l = [] := List.isEmpty_iff.mp h
        subst hl
        simp [collectData, aggStep, ih]
      · simp [collectData, aggStep, h, ih, List.append_assoc]

theorem aggregateBatch_error (results : List PageResult) :
    (aggregateBatch results).batch_has_error = results.any Option.isNone := by
  simp [aggregateBatch, foldl_aggStep_error]

theorem aggregateBatch_end (results : List PageResult) :
    (aggregateBatch results).is_end_of_data = results.any isEndSignal := by
  simp [aggregateBatch, foldl_aggStep_end]

theorem aggregateBatch_data (results : List PageResult) :
    (aggregateBatch results).batch_data = collectData results := by
  simp [aggregateBatch, foldl_aggStep_data]

/-! ### Claim C5 -/

/-- C5: for every sequence of page outcomes aggregated into one batch, the
batch verdict's had_failure flag (batch_has_error) is true iff at least one
outcome is Failed (a None fetch result), independently of the completion
order of the pages. -/
theorem had_failure_iff_some_failed (results : List PageResult) :
    ((aggregateBatch results).batch_has_error = true ↔ none ∈ results)
    ∧ ∀ results' : List PageResult, results.Perm results' →
        (aggregateBatch results).batch_has_error
          = (aggregateBatch results').batch_has_error := by
  constructor
  · rw [aggregateBatch_error]
    simp only [List.any_eq_true, Option.isNone_iff_eq_none]
    constructor
    · rintro ⟨x, hx, rfl⟩; exact hx
    · intro h; exact ⟨none, h, rfl⟩
  · intro results' hperm
    rw [aggregateBatch_error, aggregateBatch_error]
    refine Bool.eq_iff_iff.mpr ?_
    simp only [List.any_eq_true]
    constructor
    · rintro ⟨x, hx, h⟩; exact ⟨x, hperm.subset hx, h⟩
    · rintro ⟨x, hx, h⟩; exact ⟨x, hperm.symm.subset hx, h⟩

/-- Witness for C5 at a concrete batch: a failed page among the outcomes
makes had_failure true, and a permutation of the outcomes leaves it
unchanged. -/
theorem had_failure_iff_some_failed_witness :
    ((aggregateBatch [none, some []]).batch_has_error = true)
    ∧ (aggregateBatch [none, some []]).batch_has_error
        = (aggregateBatch [some [], none]).batch_has_error :=
  ⟨(had_failure_iff_some_failed [none, some []]).1.mpr (by simp),
   (had_failure_iff_some_failed [none, some []]).2 [some [], none]
     (List.Perm.swap (some []) none [])⟩

/-! ### Claim C1 -/

/-- C1: for every batch in which at least one page outcome is Failed (a
None fetch result), processing the batch performs no watermark store write
and leaves global_max_timestamp unchanged, so the persisted watermark after
the batch equals the persisted watermark before it — even though the
batch's collected records were still flushed to the sink. -/
theorem failed_batch_leaves_watermark (st : RunState) (results : List PageResult)
    (uploadOk : Bool) (h : none ∈ results) :
    (processBatch st results uploadOk).1.writes = st.writes
    ∧ (processBatch st results uploadOk).1.gmt = st.gmt
    ∧ ∀ w0 : Nat,
        persistedWatermark w0 (processBatch st results uploadOk).1.writes
          = persistedWatermark w0 st.writes := by
  have herr : (aggregateBatch results).batch_has_error = true := by
    rw [aggregateBatch_error]
    exact List.any_eq_true.mpr ⟨none, h, rfl⟩
  have hkey : (processBatch st results uploadOk).1.writes = st.writes
      ∧ (processBatch st results uploadOk).1.gmt = st.gmt := by
    unfold processBatch
    simp only [herr]
    split <;> simp
  exact ⟨hkey.1, hkey.2, fun w0 => by rw [hkey.1]⟩

/-- Witness for C1: a concrete batch with one failed page and one
successful page; the watermark writes and global_max_timestamp are
unchanged by processing it. -/
theorem failed_batch_leaves_watermark_witness :
    (processBatch
        { total_saved := 0, gmt := 0, counter := 0, writes := [], artifacts := [] }
        [none, some [{ id := 1, updated_at := 7 }]] true).1.writes = []
    ∧ (processBatch
        { total_saved := 0, gmt := 0, counter := 0, writes := [], artifacts := [] }
        [none, some [{ id := 1, updated_at := 7 }]] true).1.gmt = 0
    ∧ ∀ w0 : Nat,
        persistedWatermark w0 (processBatch
          { total_saved := 0, gmt := 0, counter := 0, writes := [], artifacts := [] }
          [none, some [{ id := 1, updated_at := 7 }]] true).1.writes
          = persistedWatermark w0 [] :=
  failed_batch_leaves_watermark _ _ _ (by simp)

/-! ### Claim C2 -/

/-- Appending a value at least g to the right of a non-decreasing list
whose entries are all at most g keeps it non-decreasing. -/
theorem sorted_snoc (l : List Nat) (g t : Nat) (hs : List.Sorted (· ≤ ·) l)
    (hb : ∀ x ∈ l, x ≤ g) (hgt : g ≤ t) : List.Sorted (· ≤ ·) (l ++ [t]) := by
  refine List.pairwise_append.mpr ⟨hs, List.sorted_singleton t, ?_⟩
  intro a ha b hb'
  have hbt : b = t := by simpa using hb'
  subst hbt
  exact le_trans (hb a ha) hgt

theorem processBatch_cases (st : RunState) (results : List PageResult) (uploadOk : Bool) :
    ((processBatch st results uploadOk).1.writes = st.writes
      ∧ (processBatch st results uploadOk).1.gmt = st.gmt)
    ∨ (∃ t, st.gmt < t
      ∧ (processBatch st results uploadOk).1.writes = st.writes ++ [t]
      ∧ (processBatch st results uploadOk).1.gmt = t) := by
  unfold processBatch
  dsimp only
  split
  · split
    · exact Or.inl ⟨rfl, rfl⟩
    · exact Or.inl ⟨rfl, rfl⟩
  · split
    · exact Or.inl ⟨rfl, rfl⟩
    · split
      · exact Or.inl ⟨rfl, rfl⟩
      · rename_i t _
        split
        · rename_i hlt
          exact Or.inr ⟨t, hlt, rfl, rfl⟩
        · exact Or.inl ⟨rfl, rfl⟩

theorem processBatch_inv (init : Nat) (st : RunState) (results : List PageResult)
    (uploadOk : Bool) (h : WatermarkInv init st) :
    WatermarkInv init (processBatch st results uploadOk).1 := by
  obtain ⟨hsort, hle⟩ := h
  rcases processBatch_cases st results uploadOk with ⟨hw, hg⟩ | ⟨t, hlt, hw, hg⟩
  · exact ⟨by rw [hw]; exact hsort, by rw [hw, hg]; exact hle⟩
  · constructor
    · rw [hw]
      have hc : init :: (st.writes ++ [t]) = (init :: st.writes) ++ [t] := by simp
      rw [hc]
      exact sorted_snoc _ st.gmt _ hsort hle (le_of_lt hlt)
    · intro x hx
      rw [hg]
      rw [hw] at hx
      have hx' : x ∈ (init :: st.writes) ++ [t] := by simpa using hx
      rcases List.mem_append.mp hx' with hx'' | hx''
      · exact le_of_lt (lt_of_le_of_lt (hle x hx'') hlt)
      · have hxt : x = t := by simpa using hx''
        exact hxt.le

theorem runLoop_inv (init : Nat) (st : RunState) (bs : List BatchInput)
    (h : WatermarkInv init st) : WatermarkInv init (runLoop st bs).1 := by
  induction bs generalizing st with
  | nil => exact h
  | cons b rest ih =>
    unfold runLoop
    dsimp only
    split
    · exact processBatch_inv init st b.results b.uploadOk h
    · exact ih _ (processBatch_inv init st b.results b.uploadOk h)

/-- Final watermark commit of run_extraction (lines 357-359) preserves the
invariant. -/
theorem finalCommit_inv (init : Nat) (st : RunState) (h : WatermarkInv init st) :
    WatermarkInv init
      (if init < st.gmt then { st with writes := st.writes ++ [st.gmt] } else st) := by
  obtain ⟨hsort, hle⟩ := h
  split
  · constructor
    · have hc : init :: (st.writes ++ [st.gmt]) = (init :: st.writes) ++ [st.gmt] := by
        simp
      rw [hc]
      exact sorted_snoc _ st.gmt _ hsort hle le_rfl
    · intro x hx
      have hx' : x ∈ (init :: st.writes) ++ [st.gmt] := by simpa using hx
      rcases List.mem_append.mp hx' with hx'' | hx''
      · exact hle x hx''
      · have hxt : x = st.gmt := by simpa using hx''
        exact hxt.le
  · exact ⟨hsort, hle⟩

theorem run_extraction_inv (watermark : Nat) (inputs : List BatchInput) :
    WatermarkInv watermark (run_extraction watermark inputs).1 := by
  have h0 : WatermarkInv watermark
      { total_saved := 0, gmt := watermark, counter := 0, writes := [], artifacts := [] } := by
    constructor
    · exact List.sorted_singleton watermark
    · intro x hx
      have hxw : x = watermark := by simpa using hx
      exact hxw.le
  have hloop := runLoop_inv watermark _ inputs h0
  unfold run_extraction
  dsimp only
  exact finalCommit_inv watermark _ hloop

/-- C2: across every extraction run, the value read at run start followed
by the sequence of values written to the watermark store is monotonically
non-decreasing (each commit writes a value at least the previously
persisted one), every written value is at least the starting watermark,
and the run's final_watermark (the final global_max_timestamp) is at
least the watermark read at run start. -/
theorem watermark_writes_monotone (watermark : Nat) (inputs : List BatchInput) :
    List.Sorted (· ≤ ·) (watermark :: (run_extraction watermark inputs).1.writes)
    ∧ (∀ w ∈ (run_extraction watermark inputs).1.writes, watermark ≤ w)
    ∧ watermark ≤ (run_extraction watermark inputs).1.gmt := by
  obtain ⟨hsort, hle⟩ := run_extraction_inv watermark inputs
  refine ⟨hsort, ?_, hle watermark (List.mem_cons_self _ _)⟩
  intro w hw
  exact (List.sorted_cons.mp hsort).1 w hw

/-! ### Loop characterization lemmas -/

theorem processBatch_stop (st : RunState) (results : List PageResult) (uploadOk : Bool) :
    (processBatch st results uploadOk).2 = stopsBatch results := by
  cases herr : (aggregateBatch results).batch_has_error <;>
    cases hemp : (aggregateBatch results).batch_data.isEmpty <;>
      simp [processBatch, stopsBatch, herr, hemp]

theorem processBatch_total (st : RunState) (results : List PageResult) (uploadOk : Bool) :
    (processBatch st results uploadOk).1.total_saved
      = st.total_saved + (aggregateBatch results).batch_data.length := by
  unfold processBatch
  dsimp only
  split
  · rename_i hemp
    have hnil : (aggregateBatch results).batch_data = [] := List.isEmpty_iff.mp hemp
    split <;> simp [hnil]
  · split
    · simp
    · split
      · simp
      · split <;> simp

theorem runLoop_eq_consumed (st : RunState) (bs : List BatchInput) :
    runLoop st bs = runLoop st (consumedBatches bs) := by
  induction bs generalizing st with
  | nil => rfl
  | cons b rest ih =>
    by_cases h : stopsBatch b.results
    · simp [consumedBatches, h, runLoop, processBatch_stop]
    · simp [consumedBatches, h, runLoop, processBatch_stop, ih]

theorem runLoop_stop (st : RunState) (bs : List BatchInput) :
    (runLoop st bs).2 = bs.any (fun b => stopsBatch b.results) := by
  induction bs generalizing st with
  | nil => rfl
  | cons b rest ih =>
    by_cases h : stopsBatch b.results <;>
      simp [runLoop, processBatch_stop, h, ih]

theorem runLoop_total (st : RunState) (bs : List BatchInput) :
    (runLoop st bs).1.total_saved
      = st.total_saved
        + ((consumedBatches bs).map
            (fun b => (aggregateBatch b.results).batch_data.length)).sum := by
  induction bs generalizing st with
  | nil => simp [consumedBatches, runLoop]
  | cons b rest ih =>
    by_cases h : stopsBatch b.results
    · simp [consumedBatches, h, runLoop, processBatch_stop, processBatch_total]
    · simp [consumedBatches, h, runLoop, processBatch_stop, ih, processBatch_total,
        Nat.add_assoc]

theorem collectData_eq_nil (results : List PageResult) :
    collectData results = [] ↔ ∀ r ∈ results, ∀ l, r = some l → l = [] := by
  induction results with
  | nil => simp [collectData]
  | cons r rest ih =>
    cases r with
    | none => simp [collectData, ih]
    | some l => simp [collectData, List.append_eq_nil, ih, and_comm]

theorem stopsBatch_eq (results : List PageResult) (h : results ≠ []) :
    stopsBatch results = results.any isEndSignal := by
  unfold stopsBatch
  dsimp only
  split
  · rename_i hemp
    cases herr : (aggregateBatch results).batch_has_error with
    | true =>
      simp only [herr, Bool.not_true, Bool.false_or]
      exact aggregateBatch_end results
    | false =>
      simp only [herr, Bool.not_false, Bool.true_or]
      symm
      rw [List.any_eq_true]
      obtain ⟨r, hr⟩ := List.exists_mem_of_ne_nil results h
      refine ⟨r, hr, ?_⟩
      have hnone : r ≠ none := by
        intro hr0
        subst hr0
        have hcontra : (aggregateBatch results).batch_has_error = true := by
          rw [aggregateBatch_error]
          exact List.any_eq_true.mpr ⟨none, hr, rfl⟩
        rw [herr] at hcontra
        exact Bool.noConfusion hcontra
      obtain ⟨l, rfl⟩ := Option.ne_none_iff_exists'.mp hnone
      have hdata : (aggregateBatch results).batch_data = [] := List.isEmpty_iff.mp hemp
      rw [aggregateBatch_data] at hdata
      have hl : l = [] := (collectData_eq_nil results).mp hdata (some l) hr l rfl
      subst hl
      simp [isEndSignal, PAGE_SIZE]
  · exact aggregateBatch_end results

theorem consumedBatches_dropLast (bs : List BatchInput) :
    ∀ b ∈ (consumedBatches bs).dropLast, stopsBatch b.results = false ∧ b ∈ bs := by
  induction bs with
  | nil => simp [consumedBatches]
  | cons b rest ih =>
    by_cases h : stopsBatch b.results
    · simp [consumedBatches, h]
    · intro x hx
      rw [consumedBatches, if_neg h] at hx
      cases hcr : consumedBatches rest with
      | nil =>
        rw [hcr] at hx
        simp at hx
      | cons c cs =>
        rw [hcr, List.dropLast_cons₂] at hx
        rcases List.mem_cons.mp hx with rfl | hx'
        · exact ⟨Bool.eq_false_iff.mpr h, List.mem_cons_self _ _⟩
        · have hrec := ih x (by rw [hcr]; exact hx')
          exact ⟨hrec.1, List.mem_cons_of_mem _ hrec.2⟩

/-! ### Claim C6 -/

/-- C6: the controller loop terminates at exactly the first batch in which
some page outcome is EndOfData or some Data outcome has fewer than
PAGE_SIZE records, whatever the completion order (the characterization is
in terms of membership only); batches whose outcomes are only Failed pages
and full Data pages never set the exit flag.  Concretely: the loop exits
iff some processed batch carries an end signal, the loop result only
depends on the batches up to the first stopping one, no batch before the
first stopping one carries an end signal, and a batch sets the exit flag
iff one of its page results is an end signal. -/
theorem loop_stops_at_first_end_signal (bs : List BatchInput) (st : RunState)
    (h : ∀ b ∈ bs, b.results ≠ []) :
    ((runLoop st bs).2 = bs.any (fun b => b.results.any isEndSignal))
    ∧ runLoop st bs = runLoop st (consumedBatches bs)
    ∧ (∀ b ∈ (consumedBatches bs).dropLast, b.results.any isEndSignal = false)
    ∧ ∀ b ∈ bs, ∀ uploadOk,
        ((processBatch st b.results uploadOk).2 = true
          ↔ ∃ r ∈ b.results, isEndSignal r = true) := by
  refine ⟨?_, runLoop_eq_consumed st bs, ?_, ?_⟩
  · rw [runLoop_stop]
    refine Bool.eq_iff_iff.mpr ?_
    simp only [List.any_eq_true]
    constructor
    · rintro ⟨b, hb, hstop⟩
      refine ⟨b, hb, ?_⟩
      rw [stopsBatch_eq b.results (h b hb)] at hstop
      exact List.any_eq_true.mp hstop
    · rintro ⟨b, hb, hsig⟩
      refine ⟨b, hb, ?_⟩
      rw [stopsBatch_eq b.results (h b hb)]
      exact List.any_eq_true.mpr hsig
  · intro b hb
    obtain ⟨hstop, hmem⟩ := consumedBatches_dropLast bs b hb
    rw [← stopsBatch_eq b.results (h b hmem)]
    exact hstop
  · intro b hb uploadOk
    rw [processBatch_stop, stopsBatch_eq b.results (h b hb)]
    simp [List.any_eq_true]

/-- Witness for C6 at the concrete inputs c6bs and st0. -/
theorem loop_stops_at_first_end_signal_witness :
    (∀ b ∈ c6bs, b.results ≠ [])
    ∧ (((runLoop st0 c6bs).2 = c6bs.any (fun b => b.results.any isEndSignal))
      ∧ runLoop st0 c6bs = runLoop st0 (consumedBatches c6bs)
      ∧ (∀ b ∈ (consumedBatches c6bs).dropLast, b.results.any isEndSignal = false)
      ∧ ∀ b ∈ c6bs, ∀ uploadOk,
          ((processBatch st0 b.results uploadOk).2 = true
            ↔ ∃ r ∈ b.results, isEndSignal r = true)) :=
  ⟨by decide, loop_stops_at_first_end_signal c6bs st0 (by decide)⟩

/-! ### Claims C3 and C4 -/

/-- Counterexample to C3: in the run over badBatch from watermark 0, the
only flush call of the run, flush_buffer_to_csv with that one-record
buffer, a failing upload and counter 0, returns 0 written; yet the
controller still writes 5 to the watermark store (once in the loop and
once in the final commit), so the persisted watermark advances past the
records whose flush reported 0. -/
theorem flush_zero_still_commits_watermark :
    (flush_buffer_to_csv [{ id := 1, updated_at := 5 }] false 0).written = 0
    ∧ (run_extraction 0 [badBatch]).1.writes = [5, 5]
    ∧ persistedWatermark 0 (run_extraction 0 [badBatch]).1.writes = 5 := by
  decide

/-- C3 amended: the watermark commit decision of the controller is
independent of the sink flush result — processing a batch yields the same
store writes, the same global_max_timestamp and the same exit flag whether
the upload succeeds or fails, so a batch with no Failed page advances the
watermark by the max-timestamp rule even when its flush returned 0. -/
theorem watermark_commit_independent_of_flush_result (st : RunState)
    (results : List PageResult) (ok ok' : Bool) :
    (processBatch st results ok).1.writes = (processBatch st results ok').1.writes
    ∧ (processBatch st results ok).1.gmt = (processBatch st results ok').1.gmt
    ∧ (processBatch st results ok).1.total_saved
        = (processBatch st results ok').1.total_saved
    ∧ (processBatch st results ok).2 = (processBatch st results ok').2 := by
  by_cases hemp : (aggregateBatch results).batch_data.isEmpty
  · simp [processBatch, hemp]
  · by_cases herr : (aggregateBatch results).batch_has_error
    · simp [processBatch, hemp, herr]
    · cases hmax : ((aggregateBatch results).batch_data.map Record.updated_at).max? with
      | none => simp [processBatch, hemp, herr, hmax]
      | some t =>
        by_cases hlt : st.gmt < t
        · simp [processBatch, hemp, herr, hmax, hlt]
        · simp [processBatch, hemp, herr, hmax, hlt]

/-- Counterexample to C4: in the run over badBatch from watermark 0, the
only flush call of the run returns 0 written, yet the run result's
total_saved is 1 (the number of fetched records), not the sum 0 of the
flush return values. -/
theorem total_saved_counts_unflushed :
    (flush_buffer_to_csv [{ id := 1, updated_at := 5 }] false 0).written = 0
    ∧ (run_extraction 0 [badBatch]).1.total_saved = 1
    ∧ (1 : Nat) ≠ 0 := by
  decide

/-- C4 amended: for every run, total_saved equals the sum over all
processed batches of the number of collected records handed to the sink
flush (the controller adds len(batch_data), discarding the flush return
value), so a batch whose flush returns 0 still contributes its fetched
record count. -/
theorem total_saved_eq_collected_sum (watermark : Nat) (inputs : List BatchInput) :
    (run_extraction watermark inputs).1.total_saved
      = ((consumedBatches inputs).map
          (fun b => (aggregateBatch b.results).batch_data.length)).sum := by
  have h := runLoop_total
    { total_saved := 0, gmt := watermark, counter := 0, writes := [], artifacts := [] }
    inputs
  unfold run_extraction
  dsimp only
  split <;> simpa using h

/-! ### Claim C9 -/

/-- C9: the sink flush is a total function (the source catches the upload
exception internally and never raises): for an empty input it returns 0
and performs no write (no artifact, counter untouched), and when the
upload fails it returns 0 instead of propagating the exception. -/
theorem flush_empty_and_failure_return_zero (data_buffer : List Record)
    (uploadOk : Bool) (counter : Nat) :
    (flush_buffer_to_csv [] uploadOk counter).written = 0
    ∧ (flush_buffer_to_csv [] uploadOk counter).uploaded = none
    ∧ (flush_buffer_to_csv [] uploadOk counter).counter = counter
    ∧ (flush_buffer_to_csv data_buffer false counter).written = 0
    ∧ (flush_buffer_to_csv data_buffer false counter).uploaded = none := by
  refine ⟨rfl, rfl, rfl, ?_, ?_⟩ <;>
    by_cases h : data_buffer.isEmpty <;> simp [flush_buffer_to_csv, h]

/-! ### Claim C10 -/

/-- C10: every flush call with a non-empty buffer increments the artifact
sequence counter exactly once before the upload is attempted, whether or
not the upload succeeds; a failed flush therefore consumes a sequence
number without creating an artifact, and a subsequent successful flush in
the same run creates its artifact under the next number, leaving a gap
(no artifact numbered c+1 exists, the next one is numbered c+2).  On a
successful flush the artifact carries the just-incremented number. -/
theorem flush_counter_increment_and_gap (buf buf2 : List Record) (ok : Bool)
    (c : Nat) (h : buf ≠ []) (h2 : buf2 ≠ []) :
    (flush_buffer_to_csv buf ok c).counter = c + 1
    ∧ (flush_buffer_to_csv buf false c).uploaded = none
    ∧ (flush_buffer_to_csv buf true c).uploaded = some (c + 1)
    ∧ (flush_buffer_to_csv buf2 true (flush_buffer_to_csv buf false c).counter).uploaded
        = some (c + 2) := by
  have hb : ¬ buf.isEmpty := by simpa [List.isEmpty_iff] using h
  have hb2 : ¬ buf2.isEmpty := by simpa [List.isEmpty_iff] using h2
  cases ok <;> simp [flush_buffer_to_csv, hb, hb2]

/-- Witness for C10 at concrete one-record buffers and counter 0. -/
theorem flush_counter_increment_and_gap_witness :
    ([({ id := 1, updated_at := 5 } : Record)] ≠ [])
    ∧ ([({ id := 2, updated_at := 6 } : Record)] ≠ [])
    ∧ ((flush_buffer_to_csv [{ id := 1, updated_at := 5 }] true 0).counter = 0 + 1
      ∧ (flush_buffer_to_csv [{ id := 1, updated_at := 5 }] false 0).uploaded = none
      ∧ (flush_buffer_to_csv [{ id := 1, updated_at := 5 }] true 0).uploaded = some (0 + 1)
      ∧ (flush_buffer_to_csv [{ id := 2, updated_at := 6 }] true
          (flush_buffer_to_csv [{ id := 1, updated_at := 5 }] false 0).counter).uploaded
          = some (0 + 2)) :=
  ⟨by decide, by decide,
   flush_counter_increment_and_gap [{ id := 1, updated_at := 5 }]
     [{ id := 2, updated_at := 6 }] true 0 (by decide) (by decide)⟩

/-! ### Claim C7 -/

/-- C7: classification of one HTTP attempt by the page fetcher.  Status
200 returns the parsed records at once; 404 and 422 return end of data
(the empty list) at once with no retry; 429, 403, any status at least 500,
and a transport-level exception retry (the loop recurses on the next
attempt after a sleep); every other status (for instance 400 or 401)
returns the failure value none at once with no retry.  Immediate returns
are independent of the remaining fuel and of every later response. -/
theorem fetch_status_classification (resp : Nat → AttemptResult) (jit : Nat → ℚ)
    (attempt current_delay fuel : Nat) (status : Nat) (body : List Record)
    (retryAfter : Option ℚ) :
    (resp attempt = .http status body retryAfter →
      ((status = 200 →
          fetchAux resp jit attempt current_delay (fuel + 1) = (some body, []))
       ∧ (status = 404 ∨ status = 422 →
          fetchAux resp jit attempt current_delay (fuel + 1) = (some [], []))
       ∧ (status = 429 ∨ status = 403 →
          fetchAux resp jit attempt current_delay (fuel + 1)
            = ((fetchAux resp jit (attempt + 1) (nextDelay current_delay) fuel).1,
               rateLimitSleep current_delay (jit attempt) retryAfter
                 :: (fetchAux resp jit (attempt + 1) (nextDelay current_delay) fuel).2))
       ∧ (500 ≤ status →
          fetchAux resp jit attempt current_delay (fuel + 1)
            = ((fetchAux resp jit (attempt + 1) (nextDelay current_delay) fuel).1,
               (current_delay : ℚ)
                 :: (fetchAux resp jit (attempt + 1) (nextDelay current_delay) fuel).2))
       ∧ (status ≠ 200 → ¬(status = 404 ∨ status = 422) →
          ¬(status = 429 ∨ status = 403) → status < 500 →
          fetchAux resp jit attempt current_delay (fuel + 1) = (none, []))))
    ∧ (resp attempt = .exc →
        fetchAux resp jit attempt current_delay (fuel + 1)
          = ((fetchAux resp jit (attempt + 1) (nextDelay current_delay) fuel).1,
             (current_delay : ℚ)
               :: (fetchAux resp jit (attempt + 1) (nextDelay current_delay) fuel).2)) := by
  constructor
  · intro hresp
    refine ⟨?_, ?_, ?_, ?_, ?_⟩
    · rintro rfl
      simp [fetchAux, hresp]
    · rintro (rfl | rfl) <;> simp [fetchAux, hresp]
    · rintro (rfl | rfl) <;> simp [fetchAux, hresp]
    · intro h5
      have h1 : ¬ status = 200 := by omega
      have h2 : ¬ (status = 404 ∨ status = 422) := by omega
      have h3 : ¬ (status = 429 ∨ status = 403) := by omega
      simp only [fetchAux, hresp]
      rw [if_neg h1, if_neg h2, if_neg h3, if_pos h5]
    · intro h1 h2 h3 h4
      have h5 : ¬ 500 ≤ status := by omega
      simp only [fetchAux, hresp]
      rw [if_neg h1, if_neg h2, if_neg h3, if_neg h5]
  · intro hresp
    simp [fetchAux, hresp]

/-- Witness for C7 at a concrete environment: the first attempt answers
200, so the fetch returns its body immediately with no sleep. -/
theorem fetch_status_classification_witness :
    constResp200 1 = AttemptResult.http 200 [] none
    ∧ fetchAux constResp200 zeroJit 1 BASE_DELAY (4 + 1) = (some [], []) :=
  ⟨rfl,
   ((fetch_status_classification constResp200 zeroJit 1 BASE_DELAY 4 200 []
      none).1 rfl).1 rfl⟩

/-! ### Claim C8 -/

/-- Closed form of the backoff delay: after n retry-sleeps the computed
delay is min(BASE_DELAY * 2 ^ n, MAX_DELAY). -/
theorem delayAfter_eq (n : Nat) :
    delayAfter n = min (BASE_DELAY * 2 ^ n) MAX_DELAY := by
  induction n with
  | zero => decide
  | succ n ih =>
    rw [delayAfter, ih, nextDelay, pow_succ]
    simp only [BASE_DELAY, MAX_DELAY, one_mul]
    generalize (2 : Nat) ^ n = t
    omega

/-- C8: the computed backoff delay is non-decreasing across consecutive
retry attempts and follows min(BASE_DELAY * 2 ^ n, MAX_DELAY), the
successor delay being exactly the nextDelay update the fetch loop applies;
with jitter between 0 and 1 and no Retry-After hint, the sleep equals the
computed delay plus the jitter and never exceeds MAX_DELAY plus the
jitter; and when a Retry-After hint of N seconds is present the sleep used
is N + 1, overriding the computed exponential delay. -/
theorem backoff_delay_schedule (n : Nat) (j Nq : ℚ) :
    delayAfter n ≤ delayAfter (n + 1)
    ∧ delayAfter (n + 1) = nextDelay (delayAfter n)
    ∧ delayAfter n = min (BASE_DELAY * 2 ^ n) MAX_DELAY
    ∧ rateLimitSleep (delayAfter n) j none = (delayAfter n : ℚ) + j
    ∧ (0 ≤ j → j ≤ 1 →
        rateLimitSleep (delayAfter n) j none ≤ (MAX_DELAY : ℚ) + j)
    ∧ rateLimitSleep (delayAfter n) j (some Nq) = Nq + 1 := by
  have hmono : delayAfter n ≤ delayAfter (n + 1) := by
    rw [delayAfter_eq n, delayAfter_eq (n + 1), pow_succ]
    simp only [BASE_DELAY, one_mul]
    generalize (2 : Nat) ^ n = t
    omega
  have hcap : delayAfter n ≤ MAX_DELAY := by
    rw [delayAfter_eq n]
    exact min_le_right _ _
  refine ⟨hmono, rfl, delayAfter_eq n, rfl, ?_, rfl⟩
  intro h0 h1
  have hq : ((delayAfter n : Nat) : ℚ) ≤ ((MAX_DELAY : Nat) : ℚ) := by
    exact_mod_cast hcap
  simp only [rateLimitSleep]
  linarith

/-- Witness for C8 at n = 0, jitter one half and hint 3. -/
theorem backoff_delay_schedule_witness :
    ((0 : ℚ) ≤ 1 / 2) ∧ ((1 / 2 : ℚ) ≤ 1)
    ∧ rateLimitSleep (delayAfter 0) (1 / 2) none ≤ (MAX_DELAY : ℚ) + 1 / 2 :=
  ⟨by norm_num, by norm_num,
   (backoff_delay_schedule 0 (1 / 2) 3).2.2.2.2.1 (by norm_num) (by norm_num)⟩

/-- Witness for C2 at the concrete run over badBatch from watermark 0. -/
theorem watermark_writes_monotone_witness :
    List.Sorted (· ≤ ·) (0 :: (run_extraction 0 [badBatch]).1.writes)
    ∧ (∀ w ∈ (run_extraction 0 [badBatch]).1.writes, 0 ≤ w)
    ∧ 0 ≤ (run_extraction 0 [badBatch]).1.gmt :=
  watermark_writes_monotone 0 [badBatch]
